import Mathlib

/-!
Shallow embedding of the site publication and naming engine of the
`Create-cpu` repository (source: `src/test-upload.js`, an Express app).
The embedding translates the slug policy, the per-user unique-slug loop,
the multi-domain URL builder, the asset weaving step, the `/api/upload`
publish handler and the `/api/register` handler into executable Lean
definitions, and proves the specification claims about them.

JavaScript runtime primitives used by the source (`String.prototype.replace`
with its `$`-substitution rules, template literals, `Number` to decimal
string conversion for small integers) are modelled explicitly.  `Nat.repr`
models the decimal rendering of the loop counter in the template literal
`slug-counter`; the file begins with a proof that `Nat.repr` is
injective, which underlies termination and minimality of the collision
resolution loop.
-/

/-! ### Decimal representation: `Nat.repr` is injective -/

/-- Decimal value of a digit-character list, most significant first:
the left inverse used to show `Nat.toDigits 10` is injective. -/
def charsVal (l : List Char) : Nat :=
  l.foldl (fun a c => a * 10 + (c.toNat - 48)) 0

theorem charsVal_append_singleton (l : List Char) (c : Char) :
    charsVal (l ++ [c]) = 10 * charsVal l + (c.toNat - 48) := by
  simp [charsVal, List.foldl_append, Nat.mul_comm]

theorem toDigitsCore_acc (f : Nat) :
    ∀ (n : Nat) (ds : List Char),
      Nat.toDigitsCore 10 f n ds = Nat.toDigitsCore 10 f n [] ++ ds := by
  induction f with
  | zero => intro n ds; simp [Nat.toDigitsCore]
  | succ f ih =>
    intro n ds
    simp only [Nat.toDigitsCore]
    by_cases h : n / 10 = 0
    · simp [h]
    · simp only [h, if_false]
      rw [ih (n / 10) (Nat.digitChar (n % 10) :: ds),
          ih (n / 10) (Nat.digitChar (n % 10) :: [])]
      simp

theorem toDigitsCore_fuel :
    ∀ (n f₁ f₂ : Nat), n < f₁ → n < f₂ →
      Nat.toDigitsCore 10 f₁ n [] = Nat.toDigitsCore 10 f₂ n [] := by
  intro n
  induction n using Nat.strong_induction_on with
  | _ n ih =>
    intro f₁ f₂ h₁ h₂
    match f₁, f₂ with
    | g₁+1, g₂+1 =>
      simp only [Nat.toDigitsCore]
      by_cases h : n / 10 = 0
      · simp [h]
      · simp only [h, if_false]
        rw [toDigitsCore_acc g₁ (n / 10), toDigitsCore_acc g₂ (n / 10)]
        have hlt : n / 10 < n := Nat.div_lt_self (Nat.pos_of_ne_zero (by
          intro hn; apply h; simp [hn])) (by omega)
        rw [ih (n / 10) hlt g₁ g₂ (by omega) (by omega)]

theorem digitChar_val (d : Nat) (hd : d < 10) :
    (Nat.digitChar d).toNat - 48 = d := by
  interval_cases d <;> decide

theorem charsVal_toDigits (n : Nat) : charsVal (Nat.toDigits 10 n) = n := by
  induction n using Nat.strong_induction_on with
  | _ n ih =>
    simp only [Nat.toDigits, Nat.toDigitsCore]
    by_cases h : n / 10 = 0
    · have hn : n < 10 := by omega
      have : n % 10 = n := Nat.mod_eq_of_lt hn
      simp [h, this, charsVal, digitChar_val n hn]
    · simp only [h, if_false]
      rw [toDigitsCore_acc n (n / 10)]
      have hlt : n / 10 < n := Nat.div_lt_self (Nat.pos_of_ne_zero (by
        intro hn; apply h; simp [hn])) (by omega)
      rw [toDigitsCore_fuel (n / 10) n (n / 10 + 1) hlt (Nat.lt_succ_self _)]
      have hv : charsVal (Nat.toDigits 10 (n / 10)) = n / 10 := ih (n / 10) hlt
      simp only [Nat.toDigits] at hv
      rw [charsVal_append_singleton, hv, digitChar_val (n % 10) (Nat.mod_lt n (by omega))]
      omega

theorem repr_injective : ∀ m n : Nat, Nat.repr m = Nat.repr n → m = n := by
  intro m n h
  have hd : Nat.toDigits 10 m = Nat.toDigits 10 n := by
    have := congrArg String.data h
    simpa [Nat.repr, List.asString] using this
  have := congrArg charsVal hd
  rwa [charsVal_toDigits, charsVal_toDigits] at this

/-! ### SlugPolicy: slug derivation and validation

Source: `src/test-upload.js`, the `/api/upload` handler lines 537-546 and
`validateSubdomain` lines 220-235.
-/

/-- A character kept by the normalization regex class `[a-z0-9]`. -/
def isSlugChar (c : Char) : Bool :=
  ('a' ≤ c && c ≤ 'z') || ('0' ≤ c && c ≤ '9')

/-- ASCII lowercasing, as `toLowerCase()` acts character-wise on the request
strings (`String.toLower` maps `Char.toLower` over the characters; spelled
out over the character list so that it evaluates inside the kernel). -/
def jsToLower (s : String) : String := String.mk (s.data.map Char.toLower)

/-- Scanner of `replace(/[^a-z0-9]+/g, '-')`: every maximal run of
characters outside `[a-z0-9]` becomes a single hyphen.  The flag records
whether the scanner is inside a run already replaced by a hyphen. -/
def replaceRunsAux : Bool → List Char → List Char
  | _, [] => []
  | inRun, c :: rest =>
    if isSlugChar c then c :: replaceRunsAux false rest
    else if inRun then replaceRunsAux true rest
    else '-' :: replaceRunsAux true rest

/-- `replace(/[^a-z0-9]+/g, '-')` on a character list. -/
def replaceRuns (l : List Char) : List Char := replaceRunsAux false l

/-- Drop one leading hyphen, if present (half of `replace(/^-|-$/g, '')`). -/
def stripLeadHyphen : List Char → List Char
  | [] => []
  | c :: t => if c = '-' then t else c :: t

/-- `replace(/^-|-$/g, '')`: the regex removes at most one hyphen at the very
start and at most one hyphen at the very end of the string. -/
def stripEdgeHyphens (l : List Char) : List Char :=
  (stripLeadHyphen ((stripLeadHyphen l).reverse)).reverse

/-- The handler's normalization chain for a present site name:
`siteName.toLowerCase().replace(/[^a-z0-9]+/g, '-').replace(/^-|-$/g, '')`
(ASCII case mapping). -/
def normalizeName (s : String) : String :=
  String.mk (stripEdgeHyphens (replaceRuns (jsToLower s).data))

/-- Slug derivation from the display name, `... || 'site'` fallback included.
An absent (`undefined`) site name makes `siteName.toLowerCase()` throw a
`TypeError`, caught by the handler's `catch` as a 500 error: modelled as
`none`. -/
def slugFromName (siteName : Option String) : Option String :=
  match siteName with
  | none => none
  | some s => some (if normalizeName s = "" then "site" else normalizeName s)

/-- Candidate slug of a publish request: the explicit `siteSlug` when truthy,
otherwise derived from the display name (lines 538-541). -/
def candidateSlug (siteSlug siteName : Option String) : Option String :=
  match siteSlug with
  | some s => if s = "" then slugFromName siteName else some s
  | none => slugFromName siteName

/-- A character of the validation class `[a-zA-Z0-9-]`. -/
def validSubChar (c : Char) : Bool := c.isAlphanum || c == '-'

/-- `validateSubdomain` (lines 220-235): `^[a-zA-Z0-9-]+$`, length in
`[3, 63]`, no leading or trailing hyphen. -/
def validateSubdomain (s : String) : Bool :=
  (!s.data.isEmpty && s.data.all validSubChar)
    && (3 ≤ s.length && s.length ≤ 63)
    && (!(s.data.head? == some '-') && !(s.data.getLast? == some '-'))

/-- A character of the username class `[a-zA-Z0-9_-]`. -/
def validUserChar (c : Char) : Bool := c.isAlphanum || c == '-' || c == '_'

/-- Reserved usernames (line 211). -/
def reservedNames : List String :=
  ["www", "api", "admin", "dashboard", "mail", "ftp", "cdn", "static",
   "assets", "hosted", "users"]

/-- `validateUsername` (lines 197-217). -/
def validateUsername (s : String) : Bool :=
  (!s.data.isEmpty && s.data.all validUserChar)
    && (3 ≤ s.length && s.length ≤ 30)
    && (!(s.data.head? == some '-') && !(s.data.getLast? == some '-')
        && !(s.data.head? == some '_') && !(s.data.getLast? == some '_'))
    && !(reservedNames.contains (jsToLower s))

/-- Modelled from the spec (§4.1 wording, for comparison against the code's
`normalizeName`): lowercase, replace every maximal run of characters outside
`[a-z0-9]` with a single hyphen, strip leading and trailing hyphens (all of
them, as the spec's words say, rather than the code's one-each regex). -/
def specNormalize (s : String) : String :=
  String.mk
    ((((replaceRuns (jsToLower s).data).dropWhile (fun c => c == '-')).reverse.dropWhile
        (fun c => c == '-')).reverse)

/-! ### UniqueNamer: per-user slug collision resolution

Source: lines 548-554, the `while` loop over `finalSlug`/`counter`.  The
loop's two variables are returned as a pair: the exit candidate index and
the final slug.  `candSlug slug k` is the `k`-th candidate tried: the raw
slug itself for `k = 0`, then `` `${slug}-${counter}` `` for `counter ≥ 1`.
The fuel `existing.length + 1` is proved sufficient below, so the fuel-0
branch is unreachable. -/

/-- The `k`-th candidate of the uniqueness loop. -/
def candSlug (slug : String) (k : Nat) : String :=
  if k = 0 then slug else slug ++ "-" ++ Nat.repr k

/-- The `while (user.sites.some(site => site.slug === finalSlug))` loop. -/
def resolveLoop (slug : String) (existing : List String) : Nat → Nat → Nat × String
  | 0, k => (k, candSlug slug k)
  | fuel+1, k =>
    if candSlug slug k ∈ existing then resolveLoop slug existing fuel (k + 1)
    else (k, candSlug slug k)

/-- The resolved unique slug (`finalSlug` after the loop). -/
def resolveUnique (slug : String) (existing : List String) : String :=
  (resolveLoop slug existing (existing.length + 1) 0).2

/-- The candidate index at which the loop exits (0 when the raw slug was
free; the appended counter value otherwise). -/
def resolveIdx (slug : String) (existing : List String) : Nat :=
  (resolveLoop slug existing (existing.length + 1) 0).1

/-! ### DomainUrlBuilder

Source: `SUPPORTED_DOMAINS`/`PRIMARY_DOMAIN` (lines 90-104) and
`generateSiteUrls` (lines 174-182).  The JS object literal is modelled as an
association list in domain order; `generateSiteUrlsOver` abstracts the
configured domain list the source reads from the module-level constant. -/

def SUPPORTED_DOMAINS : List String :=
  ["ntandostore", "ntando.app", "ntando.cloud", "ntando.zw", "ntl.cloud",
   "ntl.ai", "ntando.tech", "ntando.dev", "ntando.host", "ntando.site"]

def PRIMARY_DOMAIN : String := "ntandostore"

/-- `urls[domain] = ` `` `https://${userSubdomain}-${siteSlug}.${domain}` ``
for every configured domain. -/
def generateSiteUrlsOver (domains : List String) (userSubdomain siteSlug : String) :
    List (String × String) :=
  domains.map (fun domain =>
    (domain, "https://" ++ userSubdomain ++ "-" ++ siteSlug ++ "." ++ domain))

/-- `generateSiteUrls` as in the source, over the configured constant. -/
def generateSiteUrls (userSubdomain siteSlug : String) : List (String × String) :=
  generateSiteUrlsOver SUPPORTED_DOMAINS userSubdomain siteSlug

/-! ### JavaScript `String.prototype.replace` with a string pattern

The handler composes the published document with three
`fullHtml.replace(pattern, replacement)` calls (lines 561-576).  With a
string pattern, `replace` rewrites the **first** occurrence only, and the
replacement string undergoes the ECMAScript `GetSubstitution` rules: with no
capture groups, `$$` yields `$`, `$&` the matched text, ``$` `` the portion
before the match, `$'` the portion after the match, and any other `$`
sequence is kept literally. -/

/-- Backtick, `U+0060`. -/
def backtickChar : Char := Char.ofNat 96

/-- Apostrophe, `U+0027`. -/
def aposChar : Char := Char.ofNat 39

/-- Does `pat` occur at the head of the list? -/
def leadsWith : List Char → List Char → Bool
  | [], _ => true
  | _ :: _, [] => false
  | p :: ps, c :: cs => p == c && leadsWith ps cs

/-- Split at the first occurrence of `pat`: returns the part before the match
and the part after it, or `none` when `pat` does not occur. -/
def splitFirst (pat : List Char) : List Char → Option (List Char × List Char)
  | [] => none
  | c :: rest =>
    if leadsWith pat (c :: rest) then some ([], (c :: rest).drop pat.length)
    else
      match splitFirst pat rest with
      | some (pre, post) => some (c :: pre, post)
      | none => none

/-- `GetSubstitution` over the replacement template, with no capture groups:
`matched` is the matched text, `before`/`after` the surrounding portions. -/
def substAux (matched before after : String) : List Char → List Char
  | [] => []
  | c :: rest =>
    if c = '$' then
      match rest with
      | [] => ['$']
      | d :: rest2 =>
        if d = '$' then '$' :: substAux matched before after rest2
        else if d = '&' then matched.data ++ substAux matched before after rest2
        else if d = backtickChar then before.data ++ substAux matched before after rest2
        else if d = aposChar then after.data ++ substAux matched before after rest2
        else '$' :: substAux matched before after (d :: rest2)
    else c :: substAux matched before after rest

/-- `s.replace(pat, repl)` for a string pattern `pat`: first occurrence only,
with `GetSubstitution` applied to `repl`. -/
def jsReplaceFirst (s pat repl : String) : String :=
  match splitFirst pat.data s.data with
  | none => s
  | some (pre, post) =>
    String.mk (pre ++ substAux pat (String.mk pre) (String.mk post) repl.data ++ post)

/-- Modelled from the spec (§4.5 step 4 wording): plain insertion — the first
occurrence of the marker is replaced by the replacement text taken literally,
and a document lacking the marker is left unchanged. -/
def plainReplaceFirst (s pat repl : String) : String :=
  match splitFirst pat.data s.data with
  | none => s
  | some (pre, post) => String.mk (pre ++ repl.data ++ post)

/-! ### Asset weaving (lines 561-576) -/

/-- The favicon replacement template of line 565. -/
def faviconTemplate (f : String) : String :=
  "<head>\n    <link rel=\"icon\" href=\"data:image/x-icon;base64," ++ f ++ "\">"

/-- The CSS replacement template of line 569. -/
def cssTemplate (c : String) : String :=
  "<style>" ++ c ++ "</style></head>"

/-- The JS replacement template of line 573. -/
def jsTemplate (j : String) : String :=
  "<script>" ++ j ++ "</script></body>"

/-- JS truthiness of an optional request string: present and non-empty. -/
def truthy : Option String → Bool
  | none => false
  | some s => !(s == "")

/-- The document composition of the upload handler: favicon after `<head>`,
CSS before `</head>`, JS before `</body>`, each step guarded by the
truthiness of the corresponding optional asset. -/
def weave (html : String) (favicon css js : Option String) : String :=
  let h1 := if truthy favicon then
      jsReplaceFirst html "<head>" (faviconTemplate (favicon.getD ""))
    else html
  let h2 := if truthy css then
      jsReplaceFirst h1 "</head>" (cssTemplate (css.getD ""))
    else h1
  if truthy js then jsReplaceFirst h2 "</body>" (jsTemplate (js.getD "")) else h2

/-- Modelled from the spec (§4.5 step 4 wording): the same three-step
composition, with each insertion a plain splice at the marker. -/
def specWeave (html : String) (favicon css js : Option String) : String :=
  let h1 := if truthy favicon then
      plainReplaceFirst html "<head>" (faviconTemplate (favicon.getD ""))
    else html
  let h2 := if truthy css then
      plainReplaceFirst h1 "</head>" (cssTemplate (css.getD ""))
    else h1
  if truthy js then plainReplaceFirst h2 "</body>" (jsTemplate (js.getD "")) else h2

/-! ### SitePublisher: the `/api/upload` handler (lines 515-613)

The handler is modelled from the point where the authenticated user's record
has been loaded.  Its externally visible state is the user's persisted site
collection (`users.json`), the set of created site directories and the blob
store of written content files.  `contentWriteOk` injects the outcome of the
`fs.writeFile(index.html)` call; a `false` outcome throws, is caught by the
handler's `catch`, and is modelled as `PubError.ioError`.  `newId` and `now`
stand for `crypto.randomUUID()` and `new Date().toISOString()`. -/

/-- A persisted Site record (lines 583-593). -/
structure SiteRec where
  id : String
  name : String
  slug : String
  domain : String
  urls : List (String × String)
  createdAt : String
  updatedAt : String
  visits : Nat
  published : Bool
deriving DecidableEq

/-- The publish request body (line 517). -/
structure PublishRequest where
  html : Option String
  css : Option String
  js : Option String
  siteName : Option String
  siteSlug : Option String
  favicon : Option String
  preferredDomain : Option String

/-- Error outcomes of a publish call.  `internalError` is the handler's
catch-all 500 (here reachable by the `TypeError` of deriving a slug from an
absent display name); `ioError` is a failed content write. -/
inductive PubError where
  | missingContent
  | invalidSlug
  | internalError
  | ioError
deriving DecidableEq

/-- The externally visible persisted state a publish can touch. -/
structure PubState where
  sites : List SiteRec
  dirs : List String
  blobs : List (String × String)
deriving DecidableEq

/-- The `/api/upload` handler body after user lookup. -/
def publish (req : PublishRequest) (userSubdomain : String) (st : PubState)
    (contentWriteOk : Bool) (newId now : String) : PubState × Except PubError SiteRec :=
  if !truthy req.html then (st, .error .missingContent)
  else
    match candidateSlug req.siteSlug req.siteName with
    | none => (st, .error .internalError)
    | some slug =>
      if !validateSubdomain slug then (st, .error .invalidSlug)
      else
        let finalSlug := resolveUnique slug (st.sites.map SiteRec.slug)
        let dirs' := st.dirs ++ [userSubdomain ++ "/" ++ finalSlug]
        let fullHtml := weave (req.html.getD "") req.favicon req.css req.js
        if !contentWriteOk then ({ st with dirs := dirs' }, .error .ioError)
        else
          let blobs' := st.blobs ++
            [(userSubdomain ++ "/" ++ finalSlug ++ "/index.html", fullHtml)]
          let urls := generateSiteUrls userSubdomain finalSlug
          let selectedDomain := match req.preferredDomain with
            | some p => if p = "" then PRIMARY_DOMAIN else p
            | none => PRIMARY_DOMAIN
          let site : SiteRec :=
            { id := newId
              name := match req.siteName with
                | some s => if s = "" then "Untitled Site" else s
                | none => "Untitled Site"
              slug := finalSlug
              domain := selectedDomain
              urls := urls
              createdAt := now
              updatedAt := now
              visits := 0
              published := true }
          ({ sites := st.sites ++ [site], dirs := dirs', blobs := blobs' }, .ok site)

/-! ### SubdomainAssigner and the `/api/register` handler (lines 185-194,
256-331) -/

/-- The fixed adjective list of `generateSubdomain`. -/
def adjectives : List String :=
  ["quick", "bright", "clever", "swift", "smart", "happy", "lucky", "sunny",
   "cool", "warm"]

/-- The fixed noun list of `generateSubdomain`. -/
def nouns : List String :=
  ["site", "web", "page", "space", "zone", "hub", "spot", "place", "world",
   "realm"]

/-- The three `Math.random()` draws of `generateSubdomain`: an adjective
index in `[0, 9]`, a noun index in `[0, 9]`, and the raw number draw in
`[0, 9998]` (the code adds 1).  Reduction modulo the range keeps the model
total. -/
structure RandPick where
  adjIdx : Nat
  nounIdx : Nat
  numDraw : Nat

/-- `generateSubdomain` (lines 185-194):
`` `${username}-${adjective}${noun}${numbers}` ``. -/
def generateSubdomain (username : String) (r : RandPick) : String :=
  username ++ "-" ++ adjectives.getD (r.adjIdx % adjectives.length) ""
    ++ nouns.getD (r.nounIdx % nouns.length) ""
    ++ Nat.repr (r.numDraw % 9999 + 1)

/-- A persisted user record (lines 295-303; the credential hash is owned by
the Authenticator collaborator and not modelled). -/
structure UserRec where
  id : String
  username : String
  email : String
  subdomain : String
  sites : List SiteRec
deriving DecidableEq

/-- Error outcomes of a registration call. -/
inductive RegError where
  | missingFields
  | invalidUsername
  | weakPassword
  | usernameTaken
  | emailTaken
deriving DecidableEq

/-- The `/api/register` handler body: field checks, username validation,
uniqueness checks on username and email, then creation of the user with a
generated subdomain — with **no** check of the generated subdomain against
existing users' subdomains and no retry. -/
def register (users : List UserRec) (username email password : String)
    (newId : String) (r : RandPick) : List UserRec × Except RegError UserRec :=
  if username = "" ∨ email = "" ∨ password = "" then (users, .error .missingFields)
  else if !validateUsername username then (users, .error .invalidUsername)
  else if password.length < 6 then (users, .error .weakPassword)
  else if users.any (fun u => u.username == username) then (users, .error .usernameTaken)
  else if users.any (fun u => u.email == email) then (users, .error .emailTaken)
  else
    let user : UserRec :=
      { id := newId, username := username, email := email,
        subdomain := generateSubdomain username r, sites := [] }
    (users ++ [user], .ok user)

/-! ### Loop correctness of the UniqueNamer -/

/-- Strings are equal exactly when their character lists are. -/
theorem string_eq_of_data_eq {s t : String} (h : s.data = t.data) : s = t := by
  cases s; cases t; exact congrArg String.mk h

/-- Distinct candidate indices give distinct candidate slugs. -/
theorem candSlug_inj (slug : String) (i j : Nat)
    (h : candSlug slug i = candSlug slug j) : i = j := by
  by_cases hi : i = 0 <;> by_cases hj : j = 0
  · omega
  · exfalso
    simp only [candSlug, hi, if_true, hj, if_false] at h
    have := congrArg String.length h
    rw [String.length_append, String.length_append] at this
    have h1 : ("-" : String).length = 1 := rfl
    omega
  · exfalso
    simp only [candSlug, hi, if_false, hj, if_true] at h
    have := congrArg String.length h
    rw [String.length_append, String.length_append] at this
    have h1 : ("-" : String).length = 1 := rfl
    omega
  · simp only [candSlug, hi, if_false, hj, if_false] at h
    have hd := congrArg String.data h
    rw [String.data_append, String.data_append, String.data_append,
        String.data_append] at hd
    rw [List.append_assoc, List.append_assoc] at hd
    have hr : (Nat.repr i).data = (Nat.repr j).data :=
      List.append_cancel_left (List.append_cancel_left hd)
    exact repr_injective i j (string_eq_of_data_eq hr)

/-- Invariant of the collision-resolution loop: with enough fuel (more than
the number of still-hittable existing slugs `T`), the loop exits at some
index at or beyond `k`, returns the candidate of its exit index, that
candidate is free, and every candidate tried before the exit was taken. -/
theorem resolveLoop_spec (slug : String) (S : List String) :
    ∀ (fuel k : Nat) (T : List String),
      (∀ j, k ≤ j → candSlug slug j ∈ S → candSlug slug j ∈ T) →
      T.length < fuel →
      k ≤ (resolveLoop slug S fuel k).1 ∧
      (resolveLoop slug S fuel k).2 = candSlug slug (resolveLoop slug S fuel k).1 ∧
      (resolveLoop slug S fuel k).2 ∉ S ∧
      (∀ j, k ≤ j → j < (resolveLoop slug S fuel k).1 → candSlug slug j ∈ S) := by
  intro fuel
  induction fuel with
  | zero => intro k T _ hlen; omega
  | succ fuel ih =>
    intro k T hT hlen
    by_cases hmem : candSlug slug k ∈ S
    · have hkT : candSlug slug k ∈ T := hT k (Nat.le_refl k) hmem
      have hT' : ∀ j, k + 1 ≤ j → candSlug slug j ∈ S →
          candSlug slug j ∈ T.erase (candSlug slug k) := by
        intro j hj hjS
        have hne : candSlug slug j ≠ candSlug slug k := by
          intro he
          have := candSlug_inj slug j k he
          omega
        exact (List.mem_erase_of_ne hne).mpr (hT j (by omega) hjS)
      have hlen' : (T.erase (candSlug slug k)).length < fuel := by
        rw [List.length_erase_of_mem hkT]
        have := List.length_pos_of_mem hkT
        omega
      have hstep : resolveLoop slug S (fuel + 1) k = resolveLoop slug S fuel (k + 1) := by
        simp only [resolveLoop, if_pos hmem]
      obtain ⟨h1, h2, h3, h4⟩ := ih (k + 1) (T.erase (candSlug slug k)) hT' hlen'
      rw [hstep]
      refine ⟨by omega, h2, h3, ?_⟩
      intro j hkj hjlt
      by_cases hjk : j = k
      · subst hjk; exact hmem
      · exact h4 j (by omega) hjlt
    · have hstep : resolveLoop slug S (fuel + 1) k = (k, candSlug slug k) := by
        simp only [resolveLoop, if_neg hmem]
      rw [hstep]
      exact ⟨Nat.le_refl k, rfl, hmem, by intro j h1 h2; omega⟩

/-- The resolved slug is free, is the candidate of the exit index, and every
earlier candidate was taken. -/
theorem resolveUnique_spec (slug : String) (S : List String) :
    resolveUnique slug S ∉ S ∧
    resolveUnique slug S = candSlug slug (resolveIdx slug S) ∧
    (∀ j, j < resolveIdx slug S → candSlug slug j ∈ S) := by
  have h := resolveLoop_spec slug S (S.length + 1) 0 S (fun _ _ hj => hj) (by omega)
  exact ⟨h.2.2.1, h.2.1, fun j hj => h.2.2.2 j (Nat.zero_le j) hj⟩

/-- A candidate absent from the existing slugs is returned unchanged. -/
theorem resolveUnique_of_not_mem (slug : String) (S : List String) (h : slug ∉ S) :
    resolveUnique slug S = slug := by
  obtain ⟨_, heq, hmin⟩ := resolveUnique_spec slug S
  by_cases h0 : resolveIdx slug S = 0
  · rw [heq, h0]; rfl
  · exact absurd (by simpa [candSlug] using hmin 0 (Nat.pos_of_ne_zero h0)) h

/-- A taken candidate forces the loop past index 0. -/
theorem resolveIdx_pos_of_mem (slug : String) (S : List String) (h : slug ∈ S) :
    1 ≤ resolveIdx slug S := by
  obtain ⟨hfree, heq, _⟩ := resolveUnique_spec slug S
  by_cases h0 : resolveIdx slug S = 0
  · exact absurd (by rw [heq, h0] at hfree; simpa [candSlug] using hfree) (by simp [h])
  · omega

/-- Publish request used by the sequential-publish test of C1: explicit
requested slug `"test"`. -/
def reqTest : PublishRequest :=
  { html := some "<html><head></head><body>x</body></html>", css := none,
    js := none, siteName := some "Test", siteSlug := some "test",
    favicon := none, preferredDomain := none }

/-- C1: for every candidate slug and finite existing set, the resolved slug
is not in the set; an uncolliding candidate is returned unchanged; a
colliding one gets suffix `-k` for the lowest positive integer `k` whose
suffixed value is free; and two sequential publishes by the same user with
requested slug `"test"` yield slugs `"test"` then `"test-1"`. -/
theorem c1_slug_uniqueness_resolution :
    (∀ (c : String) (S : List String), resolveUnique c S ∉ S) ∧
    (∀ (c : String) (S : List String), c ∉ S → resolveUnique c S = c) ∧
    (∀ (c : String) (S : List String), c ∈ S →
      1 ≤ resolveIdx c S ∧
      resolveUnique c S = c ++ "-" ++ Nat.repr (resolveIdx c S) ∧
      (∀ j, 1 ≤ j → j < resolveIdx c S → c ++ "-" ++ Nat.repr j ∈ S)) ∧
    ((publish reqTest "u" ⟨[], [], []⟩ true "i1" "t1").1.sites.map SiteRec.slug
        = ["test"] ∧
      (publish reqTest "u"
          (publish reqTest "u" ⟨[], [], []⟩ true "i1" "t1").1 true "i2" "t2").1.sites.map
          SiteRec.slug = ["test", "test-1"]) := by
  refine ⟨fun c S => (resolveUnique_spec c S).1,
    fun c S h => resolveUnique_of_not_mem c S h,
    fun c S h => ?_, by decide, by decide⟩
  obtain ⟨hfree, heq, hmin⟩ := resolveUnique_spec c S
  have hpos := resolveIdx_pos_of_mem c S h
  refine ⟨hpos, ?_, ?_⟩
  · rw [heq]
    unfold candSlug
    rw [if_neg (by omega)]
  · intro j hj1 hjlt
    have hm := hmin j hjlt
    rwa [candSlug, if_neg (by omega)] at hm

/-- Witness for C1 at candidate `"test"` against the existing slug sets `[]`
and `["test"]`. -/
theorem c1_slug_uniqueness_resolution_witness :
    resolveUnique "test" [] = "test" ∧
    resolveUnique "test" ["test"] ∉ (["test"] : List String) ∧
    resolveUnique "test" ["test"]
      = "test" ++ "-" ++ Nat.repr (resolveIdx "test" ["test"]) :=
  ⟨c1_slug_uniqueness_resolution.2.1 "test" [] (by decide),
   c1_slug_uniqueness_resolution.1 "test" ["test"],
   (c1_slug_uniqueness_resolution.2.2.1 "test" ["test"] (by decide)).2.1⟩


/-- Decidable equality of publish outcomes, used to evaluate the model on
concrete requests. -/
instance {α β : Type} [DecidableEq α] [DecidableEq β] : DecidableEq (Except α β) := fun x y =>
  match x, y with
  | .error a, .error b =>
    if h : a = b then isTrue (by rw [h]) else isFalse (fun he => by cases he; exact h rfl)
  | .error _, .ok _ => isFalse (fun he => by cases he)
  | .ok _, .error _ => isFalse (fun he => by cases he)
  | .ok a, .ok b =>
    if h : a = b then isTrue (by rw [h]) else isFalse (fun he => by cases he; exact h rfl)

/-! ### Error handling of the publish call -/

/-- C2: whenever a publish fails — missing content, invalid slug, the
internal error of deriving a slug from an absent display name, or an I/O
error during the content write — the user's persisted site collection is
unchanged and no content blob is recorded; moreover every failure other
than the content-write I/O error happens before any write at all, leaving
the whole persisted state untouched.  In particular a failed content write
prevents the metadata append. -/
theorem c2_failed_publish_leaves_state
    (req : PublishRequest) (sub : String) (st : PubState) (wk : Bool)
    (newId now : String) (e : PubError)
    (h : (publish req sub st wk newId now).2 = .error e) :
    (publish req sub st wk newId now).1.sites = st.sites ∧
    (publish req sub st wk newId now).1.blobs = st.blobs ∧
    (e ≠ PubError.ioError → (publish req sub st wk newId now).1 = st) := by
  cases h1 : truthy req.html with
  | false => simp [publish, h1]
  | true =>
    cases hc : candidateSlug req.siteSlug req.siteName with
    | none => simp [publish, h1, hc]
    | some slug =>
      cases hv : validateSubdomain slug with
      | false => simp [publish, h1, hc, hv]
      | true =>
        cases hwk : wk with
        | false =>
          have h2 : e = PubError.ioError := by
            simp [publish, h1, hc, hv, hwk] at h
            exact h.symm
          simp [publish, h1, hc, hv, hwk, h2]
        | true =>
          simp [publish, h1, hc, hv, hwk] at h

/-- The empty publish request: no content at all. -/
def reqNoHtml : PublishRequest :=
  { html := none, css := none, js := none, siteName := none, siteSlug := none,
    favicon := none, preferredDomain := none }

/-- Witness for C2: publishing without HTML fails with `missingContent` and
the persisted state is exactly the initial one. -/
theorem c2_failed_publish_leaves_state_witness :
    (publish reqNoHtml "u" ⟨[], [], []⟩ true "i" "t").2
        = Except.error PubError.missingContent ∧
    (publish reqNoHtml "u" ⟨[], [], []⟩ true "i" "t").1.sites = [] ∧
    (publish reqNoHtml "u" ⟨[], [], []⟩ true "i" "t").1 = (⟨[], [], []⟩ : PubState) :=
  have h : (publish reqNoHtml "u" ⟨[], [], []⟩ true "i" "t").2
      = Except.error PubError.missingContent := by decide
  have hr := c2_failed_publish_leaves_state reqNoHtml "u" ⟨[], [], []⟩ true "i" "t"
    PubError.missingContent h
  ⟨h, hr.1, hr.2.2 (by decide)⟩

/-! ### Effective primary domain -/

/-- A successful publish request with an explicit fresh slug `"abc"` and
preferred domain `"ntando.app"`, used by several witnesses. -/
def pubReqA : PublishRequest :=
  { html := some "<html><head></head><body>x</body></html>", css := none,
    js := none, siteName := none, siteSlug := some "abc", favicon := none,
    preferredDomain := some "ntando.app" }

/-- The Site record produced by publishing `pubReqA` into the empty state. -/
def pubSiteA : SiteRec :=
  { id := "i", name := "Untitled Site", slug := "abc", domain := "ntando.app",
    urls := generateSiteUrls "u" "abc", createdAt := "t", updatedAt := "t",
    visits := 0, published := true }

/-- A publish request whose preferred domain is not a configured domain. -/
def reqEvil : PublishRequest :=
  { html := some "<html><head></head><body>x</body></html>", css := none,
    js := none, siteName := some "x y", siteSlug := none, favicon := none,
    preferredDomain := some "evil.com" }

/-- Counterexample to C3: the handler computes
`preferredDomain || PRIMARY_DOMAIN` with no membership check against the
configured domain list, so a successful publish with `preferredDomain`
`"evil.com"` — not a configured domain — records `"evil.com"` as the site's
effective primary domain instead of falling back to the configured global
primary domain as the claim requires. -/
theorem c3_preferred_domain_counterexample :
    (publish reqEvil "u" ⟨[], [], []⟩ true "i" "t").1.sites.map SiteRec.domain
        = ["evil.com"] ∧
    "evil.com" ∉ SUPPORTED_DOMAINS ∧
    "evil.com" ≠ PRIMARY_DOMAIN :=
  ⟨by decide, by decide, by decide⟩

/-- C3 (amended): the effective primary domain of the created site equals
the request's `preferredDomain` whenever one is supplied and non-empty —
whether or not it belongs to the configured domain list — and equals the
configured global primary domain only when `preferredDomain` is absent or
empty. -/
theorem c3_effective_primary_domain
    (req : PublishRequest) (sub : String) (st : PubState) (wk : Bool)
    (newId now : String) (site : SiteRec)
    (h : (publish req sub st wk newId now).2 = .ok site) :
    site.domain = match req.preferredDomain with
      | some p => if p = "" then PRIMARY_DOMAIN else p
      | none => PRIMARY_DOMAIN := by
  cases h1 : truthy req.html with
  | false => simp [publish, h1] at h
  | true =>
    cases hc : candidateSlug req.siteSlug req.siteName with
    | none => simp [publish, h1, hc] at h
    | some slug =>
      cases hv : validateSubdomain slug with
      | false => simp [publish, h1, hc, hv] at h
      | true =>
        cases hwk : wk with
        | false => simp [publish, h1, hc, hv, hwk] at h
        | true =>
          simp [publish, h1, hc, hv, hwk] at h
          subst h
          rfl

/-- Witness for C3 (amended) at `pubReqA`. -/
theorem c3_effective_primary_domain_witness :
    pubSiteA.domain = "ntando.app" :=
  c3_effective_primary_domain pubReqA "u" ⟨[], [], []⟩ true "i" "t" pubSiteA
    (by decide)

/-! ### Fields of a freshly created Site record -/

/-- C9: every Site record created by a successful publish has visit counter
0, publication flag true, and as display name the supplied one, or the
literal `"Untitled Site"` when no (non-empty) display name is supplied. -/
theorem c9_site_record_fields
    (req : PublishRequest) (sub : String) (st : PubState) (wk : Bool)
    (newId now : String) (site : SiteRec)
    (h : (publish req sub st wk newId now).2 = .ok site) :
    site.visits = 0 ∧ site.published = true ∧
    site.name = (match req.siteName with
      | some s => if s = "" then "Untitled Site" else s
      | none => "Untitled Site") := by
  cases h1 : truthy req.html with
  | false => simp [publish, h1] at h
  | true =>
    cases hc : candidateSlug req.siteSlug req.siteName with
    | none => simp [publish, h1, hc] at h
    | some slug =>
      cases hv : validateSubdomain slug with
      | false => simp [publish, h1, hc, hv] at h
      | true =>
        cases hwk : wk with
        | false => simp [publish, h1, hc, hv, hwk] at h
        | true =>
          simp [publish, h1, hc, hv, hwk] at h
          subst h
          exact ⟨rfl, rfl, rfl⟩

/-- Witness for C9 at `pubReqA` (no display name supplied). -/
theorem c9_site_record_fields_witness :
    pubSiteA.visits = 0 ∧ pubSiteA.published = true ∧
    pubSiteA.name = "Untitled Site" :=
  c9_site_record_fields pubReqA "u" ⟨[], [], []⟩ true "i" "t" pubSiteA (by decide)

/-! ### Subdomain assignment at registration -/

/-- An existing user whose stored subdomain equals the value the next
registration will generate. -/
def alicePre : UserRec :=
  { id := "id0", username := "alice", email := "alice@example.com",
    subdomain := "bob-quickweb42", sites := [] }

/-- C4: evaluation of the register handler at the failing input.  With an
existing user holding subdomain `"bob-quickweb42"`, registering `"bob"`
with random draws (adjective `quick`, noun `web`, number 42) commits a
second user with the same subdomain: the handler verifies username and
email uniqueness but never checks the generated subdomain against existing
users, and performs no retry. -/
theorem c4_subdomain_collision_committed :
    (register [alicePre] "bob" "bob@example.com" "secret1" "id1"
        ⟨0, 1, 41⟩).1.map UserRec.subdomain
      = ["bob-quickweb42", "bob-quickweb42"] ∧
    (register [alicePre] "bob" "bob@example.com" "secret1" "id1"
        ⟨0, 1, 41⟩).2.toOption.map UserRec.subdomain = some "bob-quickweb42" :=
  ⟨by decide, by decide⟩

/-! ### URL mapping correctness -/

/-- Looking up a member domain in the generated mapping yields its URL. -/
theorem lookup_generateSiteUrlsOver (domains : List String) (sub slug d : String)
    (hd : d ∈ domains) :
    (generateSiteUrlsOver domains sub slug).lookup d
      = some ("https://" ++ sub ++ "-" ++ slug ++ "." ++ d) := by
  induction domains with
  | nil => cases hd
  | cons a rest ih =>
    by_cases hda : d = a
    · subst hda
      simp [generateSiteUrlsOver, List.lookup]
    · have hne : (d == a) = false := by simp [hda]
      simp only [generateSiteUrlsOver, List.map_cons, List.lookup, hne]
      rcases List.mem_cons.mp hd with rfl | hmem
      · exact absurd rfl hda
      · exact ih hmem

/-- The keys of the generated mapping are exactly the configured domains. -/
theorem map_fst_generateSiteUrlsOver (domains : List String) (sub slug : String) :
    (generateSiteUrlsOver domains sub slug).map Prod.fst = domains := by
  induction domains with
  | nil => rfl
  | cons a rest ih => simp only [generateSiteUrlsOver, List.map_cons] at ih ⊢; rw [ih]

/-- C7: for every subdomain identity, slug and configured domain list, the
generated URL mapping has exactly one entry per domain of the list (its
keys are the list itself, in order), the entry for domain `d` is exactly
`https://{subdomain}-{slug}.{d}`, and the spec's concrete example evaluates
accordingly; the source's `generateSiteUrls` is this builder applied to the
configured constant. -/
theorem c7_url_mapping :
    (∀ (sub slug : String) (domains : List String),
      (generateSiteUrlsOver domains sub slug).map Prod.fst = domains ∧
      (generateSiteUrlsOver domains sub slug).length = domains.length ∧
      ∀ d ∈ domains, (generateSiteUrlsOver domains sub slug).lookup d
          = some ("https://" ++ sub ++ "-" ++ slug ++ "." ++ d)) ∧
    generateSiteUrlsOver ["example.com", "example.dev"] "alice-quickweb42" "my-page"
      = [("example.com", "https://alice-quickweb42-my-page.example.com"),
         ("example.dev", "https://alice-quickweb42-my-page.example.dev")] ∧
    ∀ (sub slug : String),
      generateSiteUrls sub slug = generateSiteUrlsOver SUPPORTED_DOMAINS sub slug := by
  refine ⟨fun sub slug domains =>
    ⟨map_fst_generateSiteUrlsOver domains sub slug,
     by simp [generateSiteUrlsOver],
     fun d hd => lookup_generateSiteUrlsOver domains sub slug d hd⟩,
    by decide, fun _ _ => rfl⟩

/-- Witness for C7 at the spec's example inputs. -/
theorem c7_url_mapping_witness :
    (generateSiteUrlsOver ["example.com", "example.dev"] "alice-quickweb42"
        "my-page").lookup "example.dev"
      = some "https://alice-quickweb42-my-page.example.dev" :=
  (c7_url_mapping.1 "alice-quickweb42" "my-page"
    ["example.com", "example.dev"]).2.2 "example.dev" (by decide)

/-! ### Explicit slugs are used verbatim -/

/-- C10: an explicitly supplied slug that passes validation — including one
with uppercase letters — is used verbatim, never normalized, as the
resolved slug when it does not collide with an existing slug of the user,
and it therefore appears verbatim in every generated URL. -/
theorem c10_explicit_slug_verbatim
    (req : PublishRequest) (sub : String) (st : PubState)
    (newId now : String) (s : String)
    (hslug : req.siteSlug = some s)
    (hhtml : truthy req.html = true)
    (hval : validateSubdomain s = true)
    (hfresh : s ∉ st.sites.map SiteRec.slug) :
    (publish req sub st true newId now).2 = Except.ok
      { id := newId
        name := match req.siteName with
          | some n => if n = "" then "Untitled Site" else n
          | none => "Untitled Site"
        slug := s
        domain := match req.preferredDomain with
          | some p => if p = "" then PRIMARY_DOMAIN else p
          | none => PRIMARY_DOMAIN
        urls := generateSiteUrls sub s
        createdAt := now
        updatedAt := now
        visits := 0
        published := true } ∧
    ∀ d ∈ SUPPORTED_DOMAINS,
      (generateSiteUrls sub s).lookup d
        = some ("https://" ++ sub ++ "-" ++ s ++ "." ++ d) := by
  have hs : s ≠ "" := by
    intro he
    subst he
    simp [validateSubdomain] at hval
  have hc : candidateSlug req.siteSlug req.siteName = some s := by
    rw [hslug]
    simp [candidateSlug, hs]
  have hres : resolveUnique s (st.sites.map SiteRec.slug) = s :=
    resolveUnique_of_not_mem _ _ hfresh
  constructor
  · simp [publish, hhtml, hc, hval, hres]
  · exact fun d hd => lookup_generateSiteUrlsOver SUPPORTED_DOMAINS sub s d hd

/-- A publish request with the explicit mixed-case slug `"MyPage"`. -/
def c10req : PublishRequest :=
  { html := some "<html><head></head><body>x</body></html>", css := none,
    js := none, siteName := none, siteSlug := some "MyPage", favicon := none,
    preferredDomain := none }

/-- Witness for C10: slug `"MyPage"` is kept verbatim and appears verbatim
in the generated URLs. -/
theorem c10_explicit_slug_verbatim_witness :
    (publish c10req "alice-quickweb42" ⟨[], [], []⟩ true "i" "t").2 = Except.ok
      { id := "i", name := "Untitled Site", slug := "MyPage",
        domain := PRIMARY_DOMAIN,
        urls := generateSiteUrls "alice-quickweb42" "MyPage",
        createdAt := "t", updatedAt := "t", visits := 0, published := true } ∧
    (generateSiteUrls "alice-quickweb42" "MyPage").lookup "ntando.app"
      = some "https://alice-quickweb42-MyPage.ntando.app" :=
  have h := c10_explicit_slug_verbatim c10req "alice-quickweb42" ⟨[], [], []⟩
    "i" "t" "MyPage" rfl (by decide) (by decide) (by decide)
  ⟨h.1, h.2 "ntando.app" (by decide)⟩

/-! ### Slug validation failures -/

/-- A publish request whose display name collapses to the empty string
under normalization. -/
def reqBangs : PublishRequest :=
  { html := some "<html><head></head><body>x</body></html>", css := none,
    js := none, siteName := some "!!!", siteSlug := none, favicon := none,
    preferredDomain := none }

/-- Counterexample to C5: the non-empty raw name `"!!!"` collapses to the
empty string under normalization, yet the publish does not fail with
InvalidSlug — the `|| 'site'` fallback makes the candidate `"site"`, which
passes validation, and the publish succeeds with slug `"site"`. -/
theorem c5_collapse_to_empty_counterexample :
    normalizeName "!!!" = "" ∧
    (publish reqBangs "u" ⟨[], [], []⟩ true "i" "t").2
        ≠ Except.error PubError.invalidSlug ∧
    (publish reqBangs "u" ⟨[], [], []⟩ true "i" "t").1.sites.map SiteRec.slug
        = ["site"] :=
  ⟨by decide, by decide, by decide⟩

/-- C5 (amended): whenever the candidate slug of a publish request — the
explicit slug, or the one derived from the display name including its
`"site"` fallback — fails validation (pattern `^[a-zA-Z0-9-]+$`, length in
`[3, 63]`, no edge hyphen), the publish fails with InvalidSlug and leaves
the persisted state untouched; in particular the explicit 2-character slug
`"Ab"` fails.  A raw name collapsing to the empty string is not such a
case: its candidate is the fallback `"site"`, which passes validation. -/
theorem c5_invalid_candidate_rejected
    (req : PublishRequest) (sub : String) (st : PubState) (wk : Bool)
    (newId now : String) (c : String)
    (hhtml : truthy req.html = true)
    (hc : candidateSlug req.siteSlug req.siteName = some c)
    (hval : validateSubdomain c = false) :
    (publish req sub st wk newId now).2 = Except.error PubError.invalidSlug ∧
    (publish req sub st wk newId now).1 = st := by
  simp [publish, hhtml, hc, hval]

/-- A publish request with the explicit 2-character slug `"Ab"`. -/
def reqAb : PublishRequest :=
  { html := some "<html></html>", css := none, js := none, siteName := none,
    siteSlug := some "Ab", favicon := none, preferredDomain := none }

/-- Witness for C5 at explicit slug `"Ab"`. -/
theorem c5_invalid_candidate_rejected_witness :
    (publish reqAb "u" ⟨[], [], []⟩ true "i" "t").2
        = Except.error PubError.invalidSlug ∧
    (publish reqAb "u" ⟨[], [], []⟩ true "i" "t").1 = (⟨[], [], []⟩ : PubState) :=
  c5_invalid_candidate_rejected reqAb "u" ⟨[], [], []⟩ true "i" "t" "Ab"
    (by decide) (by decide) (by decide)

/-! ### Normalization agrees with the spec's description -/

/-- The head of the run-replacement scanner in the in-run state is never a
hyphen: the run already emitted its hyphen. -/
theorem replaceRunsAux_true_head (l : List Char) :
    ∀ h, (replaceRunsAux true l).head? = some h → isSlugChar h = true := by
  induction l with
  | nil => intro h hh; simp [replaceRunsAux] at hh
  | cons c rest ih =>
    intro h hh
    by_cases hs : isSlugChar c
    · simp [replaceRunsAux, hs] at hh
      rw [← hh]
      exact hs
    · simp only [replaceRunsAux, if_neg hs, if_pos rfl] at hh
      exact ih h hh

/-- The run-replaced output never contains two adjacent hyphens. -/
theorem replaceRunsAux_chain (l : List Char) :
    ∀ b, (replaceRunsAux b l).Chain' (fun x y => ¬(x = '-' ∧ y = '-')) := by
  induction l with
  | nil => intro b; simp [replaceRunsAux]
  | cons c rest ih =>
    intro b
    by_cases hs : isSlugChar c
    · simp only [replaceRunsAux, if_pos hs]
      rw [List.chain'_cons']
      refine ⟨?_, ih false⟩
      intro y _ hy
      rw [hy.1] at hs
      exact absurd hs (by decide)
    · cases b with
      | true =>
        simp only [replaceRunsAux, if_neg hs, if_pos rfl]
        exact ih true
      | false =>
        simp only [replaceRunsAux, if_neg hs, if_neg (by decide : ¬(false = true))]
        rw [List.chain'_cons']
        refine ⟨?_, ih true⟩
        intro y hy hc
        have := replaceRunsAux_true_head rest y (Option.mem_def.mp hy)
        rw [hc.2] at this
        exact absurd this (by decide)

/-- Under the no-adjacent-hyphens invariant, removing one leading hyphen is
the same as removing all leading hyphens. -/
theorem stripLeadHyphen_eq_dropWhile (l : List Char)
    (h : l.Chain' (fun x y => ¬(x = '-' ∧ y = '-'))) :
    stripLeadHyphen l = l.dropWhile (fun c => c == '-') := by
  match l with
  | [] => rfl
  | c :: t =>
    by_cases hc : c = '-'
    · subst hc
      have ht : t.dropWhile (fun c => c == '-') = t := by
        match t with
        | [] => rfl
        | d :: t2 =>
          have hd : ¬('-' = '-' ∧ d = '-') :=
            (List.chain'_cons'.mp h).1 d (by simp)
          have hdne : (d == '-') = false := by
            simp only [beq_eq_false_iff_ne, ne_eq]
            intro hdd
            exact hd ⟨rfl, hdd⟩
          simp [List.dropWhile, hdne]
      simp [stripLeadHyphen, List.dropWhile, ht]
    · have hcne : (c == '-') = false := by
        simp only [beq_eq_false_iff_ne, ne_eq]
        exact hc
      simp [stripLeadHyphen, hc, List.dropWhile, hcne]

/-- The no-adjacent-hyphens invariant survives removing one leading hyphen. -/
theorem chain_stripLeadHyphen (l : List Char)
    (h : l.Chain' (fun x y => ¬(x = '-' ∧ y = '-'))) :
    (stripLeadHyphen l).Chain' (fun x y => ¬(x = '-' ∧ y = '-')) := by
  match l with
  | [] => exact h
  | c :: t =>
    by_cases hc : c = '-'
    · simpa [stripLeadHyphen, hc] using h.tail
    · simpa [stripLeadHyphen, hc] using h

/-- The no-adjacent-hyphens invariant survives list reversal. -/
theorem chain_reverse (l : List Char)
    (h : l.Chain' (fun x y => ¬(x = '-' ∧ y = '-'))) :
    l.reverse.Chain' (fun x y => ¬(x = '-' ∧ y = '-')) := by
  rw [List.chain'_reverse]
  exact h.imp (fun a b hab hba => hab ⟨hba.2, hba.1⟩)

/-- Under the no-adjacent-hyphens invariant, the code's one-hyphen-each-edge
strip equals the spec's strip of all leading and trailing hyphens. -/
theorem stripEdgeHyphens_eq_dropWhile (l : List Char)
    (h : l.Chain' (fun x y => ¬(x = '-' ∧ y = '-'))) :
    stripEdgeHyphens l
      = ((l.dropWhile (fun c => c == '-')).reverse.dropWhile
          (fun c => c == '-')).reverse := by
  unfold stripEdgeHyphens
  rw [stripLeadHyphen_eq_dropWhile l h]
  have h1 : ((l.dropWhile (fun c => c == '-')).reverse).Chain'
      (fun x y => ¬(x = '-' ∧ y = '-')) :=
    chain_reverse _ (h.suffix (List.dropWhile_suffix _))
  rw [stripLeadHyphen_eq_dropWhile _ h1]

/-- The handler's normalization chain computes exactly the spec's described
normal form: lowercase, maximal runs of characters outside `[a-z0-9]`
replaced by single hyphens, leading and trailing hyphens stripped. -/
theorem normalizeName_eq_specNormalize (s : String) :
    normalizeName s = specNormalize s := by
  unfold normalizeName specNormalize
  exact congrArg String.mk
    (stripEdgeHyphens_eq_dropWhile _ (replaceRunsAux_chain _ false))

/-- Counterexample to C6: an absent raw name does not produce the candidate
`"site"` — the derivation crashes and the handler reports a 500 error — and
the non-empty raw name `"!!!"` produces candidate `"site"` although the
claim's stated normalization (lowercase, collapse runs, strip hyphens)
yields the empty string. -/
theorem c6_normalization_counterexample :
    slugFromName none = none ∧
    slugFromName (some "!!!") = some "site" ∧
    specNormalize "!!!" = "" ∧ ("site" : String) ≠ "" :=
  ⟨rfl, by decide, by decide, by decide⟩

/-- C6 (amended): slug derivation from the raw display name behaves as
follows.  An absent raw name crashes the derivation — there is no `"site"`
fallback for it — and the publish reports an internal error.  A present raw
name is normalized exactly as the spec's words say (lowercased, every
maximal run of characters outside `[a-z0-9]` replaced by a single hyphen,
leading/trailing hyphens stripped), and whenever that normal form is empty
— the raw name was empty, or all its characters were replaced — the
candidate falls back to the literal `"site"`. -/
theorem c6_slug_normalization (name : String) :
    slugFromName none = none ∧
    slugFromName (some name)
      = some (if specNormalize name = "" then "site" else specNormalize name) := by
  refine ⟨rfl, ?_⟩
  simp [slugFromName, normalizeName_eq_specNormalize]

/-! ### Asset weaving: substitution-free replacements are plain insertions -/

/-- No dollar sign occurs in the string, so `GetSubstitution` leaves the
replacement text untouched. -/
def noDollar (s : String) : Prop := ∀ c ∈ s.data, c ≠ '$'

instance (s : String) : Decidable (noDollar s) :=
  inferInstanceAs (Decidable (∀ c ∈ s.data, c ≠ '$'))

/-- Substitution is the identity on dollar-free replacement text. -/
theorem substAux_no_dollar (matched before after : String) :
    ∀ l : List Char, (∀ c ∈ l, c ≠ '$') →
      substAux matched before after l = l := by
  intro l
  induction l with
  | nil => intro _; rfl
  | cons c rest ih =>
    intro h
    have hc : c ≠ '$' := h c (by simp)
    rw [substAux.eq_def]
    simp only [if_neg hc]
    rw [ih (fun d hd => h d (by simp [hd]))]

/-- With a dollar-free replacement, `replace` is a plain first-occurrence
splice. -/
theorem jsReplaceFirst_no_dollar (s pat repl : String) (h : noDollar repl) :
    jsReplaceFirst s pat repl = plainReplaceFirst s pat repl := by
  unfold jsReplaceFirst plainReplaceFirst
  cases hsp : splitFirst pat.data s.data with
  | none => rfl
  | some pp =>
    obtain ⟨pre, post⟩ := pp
    simp only
    rw [substAux_no_dollar _ _ _ repl.data h]

/-- Appending preserves dollar-freeness. -/
theorem noDollar_append (a b : String) (ha : noDollar a) (hb : noDollar b) :
    noDollar (a ++ b) := by
  intro c hc
  rw [String.data_append] at hc
  rcases List.mem_append.mp hc with h | h
  exacts [ha c h, hb c h]

/-- The favicon template is dollar-free when the favicon payload is. -/
theorem noDollar_faviconTemplate (f : String) (hf : noDollar f) :
    noDollar (faviconTemplate f) :=
  noDollar_append _ _ (noDollar_append _ _ (by decide) hf) (by decide)

/-- The CSS template is dollar-free when the style text is. -/
theorem noDollar_cssTemplate (c : String) (hc : noDollar c) :
    noDollar (cssTemplate c) :=
  noDollar_append _ _ (noDollar_append _ _ (by decide) hc) (by decide)

/-- The JS template is dollar-free when the script text is. -/
theorem noDollar_jsTemplate (j : String) (hj : noDollar j) :
    noDollar (jsTemplate j) :=
  noDollar_append _ _ (noDollar_append _ _ (by decide) hj) (by decide)

/-- One weaving step with a dollar-free template is a plain insertion. -/
theorem weaveStep_eq (h : String) (asset : Option String) (pat : String)
    (tmpl : String → String)
    (htm : ∀ a, asset = some a → noDollar (tmpl a)) :
    (if truthy asset then jsReplaceFirst h pat (tmpl (asset.getD "")) else h)
      = (if truthy asset then plainReplaceFirst h pat (tmpl (asset.getD "")) else h) := by
  cases asset with
  | none => rfl
  | some a =>
    cases htf : truthy (some a) with
    | false => simp [htf]
    | true =>
      simp only [htf, if_true]
      exact jsReplaceFirst_no_dollar _ _ _ (htm a rfl)

/-- Counterexample to C8: a CSS asset containing the substitution sequence
`$&` is not inserted literally — `String.prototype.replace` expands `$&` to
the matched marker — so the persisted document differs from the claim's
described insertion. -/
theorem c8_substitution_counterexample :
    weave "<html><head></head><body></body></html>" none (some "$&") none
      = "<html><head><style></head></style></head><body></body></html>" ∧
    specWeave "<html><head></head><body></body></html>" none (some "$&") none
      = "<html><head><style>$&</style></head><body></body></html>" ∧
    weave "<html><head></head><body></body></html>" none (some "$&") none
      ≠ specWeave "<html><head></head><body></body></html>" none (some "$&") none :=
  ⟨by decide, by decide, by decide⟩

/-- C8 (amended): for assets free of the dollar substitution sequences, the
persisted document is the submitted HTML with the favicon link spliced in
right after the first `<head>`, the style block right before the first
`</head>`, and the script block right before the first `</body>`, each step
applying only when the corresponding asset is supplied and non-empty; and a
replacement at a marker the document lacks leaves the document unchanged,
while the remaining steps proceed. -/
theorem c8_asset_weaving :
    (∀ (html : String) (favicon css js : Option String),
      (∀ f, favicon = some f → noDollar f) →
      (∀ c, css = some c → noDollar c) →
      (∀ j, js = some j → noDollar j) →
      weave html favicon css js = specWeave html favicon css js) ∧
    (∀ s pat repl : String, splitFirst pat.data s.data = none →
      jsReplaceFirst s pat repl = s ∧ plainReplaceFirst s pat repl = s) := by
  constructor
  · intro html favicon css js hf hc hj
    simp only [weave, specWeave]
    rw [weaveStep_eq html favicon "<head>" faviconTemplate
          (fun a ha => noDollar_faviconTemplate a (hf a ha)),
        weaveStep_eq _ css "</head>" cssTemplate
          (fun a ha => noDollar_cssTemplate a (hc a ha)),
        weaveStep_eq _ js "</body>" jsTemplate
          (fun a ha => noDollar_jsTemplate a (hj a ha))]
  · intro s pat repl hsp
    constructor <;> simp [jsReplaceFirst, plainReplaceFirst, hsp]

/-- Witness for C8: dollar-free assets are plainly inserted, and a document
without the `</head>` marker is left unchanged by the CSS step. -/
theorem c8_asset_weaving_witness :
    weave "<html><head></head><body></body></html>" (some "AAAA") (some "b-c")
        (some "f()")
      = specWeave "<html><head></head><body></body></html>" (some "AAAA")
        (some "b-c") (some "f()") ∧
    jsReplaceFirst "<div>x</div>" "</head>" "<style>y</style></head>"
      = "<div>x</div>" :=
  ⟨c8_asset_weaving.1 "<html><head></head><body></body></html>" (some "AAAA")
      (some "b-c") (some "f()")
      (fun f hf => by cases hf; decide)
      (fun c hc => by cases hc; decide)
      (fun j hj => by cases hj; decide),
   (c8_asset_weaving.2 "<div>x</div>" "</head>" "<style>y</style></head>"
      (by decide)).1⟩
